import Mathlib

/-!
# Event channel and account server of `fritzy`

A shallow embedding of `kafka/producer.go` (`Producer`, `Consumer`),
`account/server.go` (`grpcServer.PostAccount`) and the producer wiring of
`account/cmd/account/main.go`.

Conventions of the embedding:

* a Go `error` value is an `Option E` (`none` is `nil`), for an arbitrary type `E` of
  non-nil errors;
* calls into code outside the repository (`json.Marshal`, the `kafka-go` writer and
  reader, the `account.Service` interface, the handler closure) are parameters: a
  function from the callee's state to its result and next state;
* `context.Context` arguments and `log.Printf` lines carry no data the properties
  below depend on and are left out;
* fields documented as records (`written`, `invoked`, `calls`, `routed`, `committed`)
  are observational: they log, in order, what a function did to its collaborators.
-/

namespace Fritzy

/-- Go `[]byte`. -/
abbrev Bytes := List UInt8

/-- Go conversion `[]byte(s)`: the UTF-8 bytes of the string. -/
def bytesOf (s : String) : Bytes := s.toUTF8.data.toList

namespace kafka

/-- The fields of `kafka.Message` that the repository sets or reads, together with the
partition and offset under which the broker stores a message. A composite literal that
leaves `Partition` and `Offset` out has them zero. -/
structure Message where
  Topic : String := ""
  Partition : Int := 0
  Offset : Int := 0
  Key : Bytes := []
  Value : Bytes := []
deriving DecidableEq, Repr, Inhabited

/-- `type Producer struct { writer *kafka.Writer }`, for a writer whose state has type
`ω`. -/
structure Producer (ω : Type) where
  writer : ω
deriving DecidableEq, Repr

/-- What one call of `Publish` leaves behind: the returned error, the producer (its
writer may have changed state) and the record of the messages handed to
`WriteMessages` during the call. -/
structure PublishResult (ω E : Type) where
  err : Option E
  producer : Producer ω
  written : List Message
deriving DecidableEq, Repr

/-- `func (p *Producer) Publish(ctx, topic, key string, value interface{}) error`
(`kafka/producer.go`, lines 25-36). `marshal` is `json.Marshal` on the value's type,
`WriteMessages` is `(*kafka.Writer).WriteMessages` for one message. -/
def Producer.Publish {ω E V : Type} (marshal : V → Bytes × Option E)
    (WriteMessages : ω → Message → Option E × ω)
    (p : Producer ω) (topic : String) (key : String) (value : V) : PublishResult ω E :=
  match marshal value with
  | (_, some err) => { err := some err, producer := p, written := [] }
  | (data, none) =>
    let msg : Message := { Topic := topic, Key := bytesOf key, Value := data }
    let (werr, w) := WriteMessages p.writer msg
    { err := werr, producer := { writer := w }, written := [msg] }

/-- `type Consumer struct { reader *kafka.Reader }`, for a reader whose state has type
`ρ`. -/
structure Consumer (ρ : Type) where
  reader : ρ
deriving DecidableEq, Repr

/-- Where control stands in `Consume`. -/
inductive Ctl (E : Type) where
  /-- At the top of the `for` body: the next action is `c.reader.ReadMessage(ctx)`. -/
  | reading : Ctl E
  /-- `ReadMessage` returned `msg` with a nil error: the next action is
  `handler(msg.Value)`. -/
  | handling (msg : Message) : Ctl E
  /-- `Consume` has returned `err`. -/
  | returned (err : Option E) : Ctl E
deriving DecidableEq, Repr

/-- The state of a running `Consume`: the control point, the consumer, the state the
handler closure carries, and the record of the payloads the handler has been invoked
with so far, oldest first. -/
structure ConsumeState (ρ η E : Type) where
  ctl : Ctl E
  consumer : Consumer ρ
  handlerState : η
  invoked : List Bytes
deriving DecidableEq, Repr

/-- One action of the loop of `func (c *Consumer) Consume(ctx, handler) error`
(`kafka/producer.go`, lines 58-70):

* at `reading`: `msg, err := c.reader.ReadMessage(ctx)`; `if err != nil { return err }`;
* at `handling msg`: `handler(msg.Value)`, whose error is logged and dropped, and back
  to the top of the loop;
* after the return nothing happens. -/
def Consumer.step {ρ η E : Type} (ReadMessage : ρ → (Message × Option E) × ρ)
    (handler : η → Bytes → Option E × η) (s : ConsumeState ρ η E) : ConsumeState ρ η E :=
  match s.ctl with
  | .reading =>
    let ((msg, err), r) := ReadMessage s.consumer.reader
    if err.isSome then
      { s with ctl := .returned err, consumer := { reader := r } }
    else
      { s with ctl := .handling msg, consumer := { reader := r } }
  | .handling msg =>
    let (_, h) := handler s.handlerState msg.Value
    { s with ctl := .reading, handlerState := h, invoked := s.invoked ++ [msg.Value] }
  | .returned _ => s

/-- The first `n` actions of the loop from state `s`. -/
def Consumer.run {ρ η E : Type} (ReadMessage : ρ → (Message × Option E) × ρ)
    (handler : η → Bytes → Option E × η) : Nat → ConsumeState ρ η E → ConsumeState ρ η E
  | 0, s => s
  | n + 1, s => Consumer.run ReadMessage handler n (Consumer.step ReadMessage handler s)

/-- `Consume` called on consumer `c` with a handler whose closure starts in state `h`,
observed after `n` actions of its loop. The call has returned `err` when `ctl` is
`returned err`; otherwise it is still looping. -/
def Consumer.Consume {ρ η E : Type} (ReadMessage : ρ → (Message × Option E) × ρ)
    (handler : η → Bytes → Option E × η) (c : Consumer ρ) (h : η) (n : Nat) :
    ConsumeState ρ η E :=
  Consumer.run ReadMessage handler n
    { ctl := .reading, consumer := c, handlerState := h, invoked := [] }

/-- The state of the handler closure after it has been invoked on the payloads of a
list, one after the other, starting from state `h`. -/
def handlerAfter {η E : Type} (handler : η → Bytes → Option E × η) (h : η)
    (payloads : List Bytes) : η :=
  payloads.foldl (fun st payload => (handler st payload).2) h

/-- The reader, started in state `r`, returns the messages `msgs` successfully, one per
call of `ReadMessage` and in this order, and fails with `e` on the next call. -/
def yields {ρ E : Type} (ReadMessage : ρ → (Message × Option E) × ρ) :
    ρ → List Message → E → Prop
  | r, [], e => (ReadMessage r).1.2 = some e
  | r, m :: ms, e =>
    (ReadMessage r).1 = (m, none) ∧ yields ReadMessage (ReadMessage r).2 ms e

/-! ### The `kafka-go` writer as `NewProducer` configures it

`kafka.Writer`, `kafka.LeastBytes` and `kafka.Reader` belong to the library
`github.com/segmentio/kafka-go`, not to the repository. The definitions of this and the
next section follow the library: they are needed wherever a property depends on what
the configured balancer or reader does. -/

/-- `leastBytesCounter` of `kafka-go`: a partition and the bytes routed to it (a
`uint64`). -/
structure leastBytesCounter where
  partition : Int
  bytes : Nat
deriving DecidableEq, Repr

/-- `kafka.LeastBytes`: the balancer state. The zero value `&kafka.LeastBytes{}` has no
counters. -/
structure LeastBytes where
  counters : List leastBytesCounter := []
deriving DecidableEq, Repr

/-- `(*LeastBytes).makeCounters`: one zeroed counter per partition, sorted by
partition. -/
def LeastBytes.makeCounters (partitions : List Int) : List leastBytesCounter :=
  (partitions.insertionSort (· ≤ ·)).map (fun p => { partition := p, bytes := 0 })

/-- The scan `for i, c := range lb.counters[1:]` of `Balance`: the index of the first
counter with the least bytes. `i` is the index of the head of the remaining list. -/
def LeastBytes.scan (minBytes minIndex i : Nat) : List leastBytesCounter → Nat
  | [] => minIndex
  | c :: cs =>
    if c.bytes < minBytes then LeastBytes.scan c.bytes i (i + 1) cs
    else LeastBytes.scan minBytes minIndex (i + 1) cs

/-- `(*LeastBytes).Balance(msg, partitions...)`: rebuilds the counters when the number
of partitions changed, picks the first counter with the least bytes, adds
`len(msg.Key) + len(msg.Value)` to it and returns its partition. `none` stands for the
index panic of the Go code on an empty partition list. -/
def LeastBytes.Balance (lb : LeastBytes) (msg : Message) (partitions : List Int) :
    Option (Int × LeastBytes) :=
  let counters :=
    if partitions.length ≠ lb.counters.length then LeastBytes.makeCounters partitions
    else lb.counters
  match counters with
  | [] => none
  | c0 :: rest =>
    let minIndex := LeastBytes.scan c0.bytes 0 1 rest
    (counters.get? minIndex).map fun c =>
      (c.partition,
        { counters := counters.set minIndex
            { c with bytes := (c.bytes + (msg.Key.length + msg.Value.length)) % 2 ^ 64 } })

/-- The fields of `kafka.Writer` that `NewProducer` sets, the field `RequiredAcks` that
it leaves at its zero value (`RequireNone`: no acknowledgement is awaited), and the
record of the partition chosen for each message handed to `WriteMessages`, oldest
first. -/
structure Writer where
  Addr : List String
  Balancer : LeastBytes
  RequiredAcks : Int := 0
  routed : List (Int × Message) := []
deriving DecidableEq, Repr

/-- `func NewProducer(brokers string) *Producer` (`kafka/producer.go`, lines 16-23):
the broker addresses are the comma-separated parts of `brokers`, the balancer is
`&kafka.LeastBytes{}`; every other field of the writer is zero. -/
def NewProducer (brokers : String) : Producer Writer :=
  { writer := { Addr := brokers.splitOn ",", Balancer := { counters := [] } } }

/-- The brokers as the writer sees them: the partitions of each topic (the first and
the others: a topic has at least one), the transport error of sending a message to a
partition (nil when the request went out), and the answer of the brokers to the append,
which a writer reads only when it requires acknowledgements. -/
structure Cluster (E : Type) where
  partitions : String → Int × List Int
  send : String → Int → Message → Option E
  ack : String → Int → Message → Option E

/-- `(*kafka.Writer).WriteMessages` for one message and a writer without a fixed topic:
the topic is the message's and the partition is the one the writer's balancer picks
among the topic's partitions. A transport error is returned; otherwise a writer with
`RequiredAcks` zero returns nil without reading any answer of the brokers, and a writer
that requires acknowledgements returns that answer. The branch `none` is not reached,
the partition list being non-empty (`Balance_isSome`). -/
def Writer.WriteMessages {E : Type} (cluster : Cluster E) (w : Writer) (msg : Message) :
    Option E × Writer :=
  match w.Balancer.Balance msg
      ((cluster.partitions msg.Topic).1 :: (cluster.partitions msg.Topic).2) with
  | none => (none, w)
  | some (partition, lb) =>
    let sent := cluster.send msg.Topic partition msg
    let err :=
      if sent.isSome then sent
      else if w.RequiredAcks = 0 then none
      else cluster.ack msg.Topic partition msg
    (err, { w with Balancer := lb, routed := w.routed ++ [(partition, msg)] })

/-! ### The `kafka-go` reader as `NewConsumer` configures it -/

/-- The fields of `kafka.ReaderConfig` that `NewConsumer` sets. -/
structure ReaderConfig where
  Brokers : List String
  GroupID : String
  Topic : String
  MinBytes : Int
  MaxBytes : Int
deriving DecidableEq, Repr

/-- A `kafka.Reader`: its configuration, the number of messages fetched so far, and the
messages whose offsets it has committed for its consumer group, oldest first. The
group's consumed position on a partition is one past the offset of the last message
committed for it. -/
structure Reader where
  config : ReaderConfig
  fetched : Nat := 0
  committed : List Message := []
deriving DecidableEq, Repr

/-- `(*Reader).useConsumerGroup`: `r.config.GroupID != ""`. -/
def Reader.useConsumerGroup (r : Reader) : Bool := r.config.GroupID != ""

/-- `(*kafka.Reader).ReadMessage`: `FetchMessage`, and for a reader of a consumer group
`CommitMessages` on the fetched message, before the message is returned (with the zero
`CommitInterval` that `NewConsumer` leaves, the commit is synchronous). `fetch k` is
the outcome of the fetch number `k`, `commit m` that of committing `m`; both stand for
the brokers. -/
def Reader.ReadMessage {E : Type} (fetch : Nat → Message × Option E)
    (commit : Message → Option E) (r : Reader) : (Message × Option E) × Reader :=
  let (m, err) := fetch r.fetched
  let r1 := { r with fetched := r.fetched + 1 }
  if err.isSome then (({}, err), r1)
  else if r.useConsumerGroup then
    match commit m with
    | some e => (({}, some e), r1)
    | none => ((m, none), { r1 with committed := r1.committed ++ [m] })
  else ((m, none), r1)

/-- `func NewConsumer(brokers, groupID, topic string) *Consumer`
(`kafka/producer.go`, lines 46-56). `10e3` and `10e6` are the integers 10000 and
10000000. -/
def NewConsumer (brokers groupID topic : String) : Consumer Reader :=
  { reader :=
      { config :=
          { Brokers := brokers.splitOn ",", GroupID := groupID, Topic := topic,
            MinBytes := 10000, MaxBytes := 10000000 } } }

/-- The relation between commits and handler calls that every action of `Consume`
preserves for a reader of a consumer group: the committed messages are the handled
ones, plus the message the handler is about to be invoked on. -/
def commitsLead {η E : Type} (s : ConsumeState Reader η E) : Prop :=
  s.consumer.reader.useConsumerGroup = true ∧
  match s.ctl with
  | .handling m =>
    s.consumer.reader.committed.getLast? = some m ∧
      s.consumer.reader.committed.map (·.Value) = s.invoked ++ [m.Value]
  | _ => s.consumer.reader.committed.map (·.Value) = s.invoked

/-! ### Concrete collaborators, used to run the definitions on explicit inputs -/

/-- A reader that hands out the messages of a list, one per call, and fails with `e`
once the list is used up. Its state is the list of messages not yet read. -/
def scriptRead {E : Type} (e : E) : List Message → (Message × Option E) × List Message
  | [] => (({}, some e), [])
  | m :: ms => ((m, none), ms)

/-- A handler that fails on every payload and counts its invocations. -/
def failingHandler (n : Nat) (_ : Bytes) : Option String × Nat := (some "handler failed", n + 1)

/-- A serialiser that accepts every byte string and returns it unchanged. -/
def rawMarshal (v : Bytes) : Bytes × Option String := (v, none)

/-- Brokers on which every topic has the two partitions 0 and 1, every request goes
out and every append is accepted. -/
def twoPartitions : Cluster String :=
  { partitions := fun _ => (0, [1]), send := fun _ _ _ => none,
    ack := fun _ _ _ => none }

/-- The first message of partition 0 of topic `account.events`. -/
def firstEvent : Message :=
  { Topic := "account.events", Partition := 0, Offset := 0, Key := [97], Value := [123, 125] }

/-- Brokers that deliver `firstEvent` on the first fetch and fail every later one. -/
def fetchFirstEvent (k : Nat) : Message × Option String :=
  if k = 0 then (firstEvent, none) else ({}, some "connection closed")

/-- Brokers that accept every commit. -/
def commitOk (_ : Message) : Option String := none

end kafka

namespace account

open kafka

/-- The account as `Service.PostAccount` returns it (`a.ID`, `a.Name`). -/
structure Account where
  ID : String
  Name : String
deriving DecidableEq, Repr

/-- `pb.PostAccountRequest`. -/
structure PostAccountRequest where
  Name : String
deriving DecidableEq, Repr

/-- `pb.Account`. -/
structure pbAccount where
  Id : String
  Name : String
deriving DecidableEq, Repr

/-- `pb.PostAccountResponse`. -/
structure PostAccountResponse where
  Account : pbAccount
deriving DecidableEq, Repr

/-- The `map[string]interface{}` literal of `PostAccount`: its entries, all of which
hold strings, in the order of the literal. -/
abbrev EventMap := List (String × String)

/-- `type grpcServer struct { service Service; kafkaProducer *kafkapkg.Producer; ... }`.
`σ` is the state behind the `Service` interface; a nil producer is `none`. -/
structure grpcServer (σ ω : Type) where
  service : σ
  kafkaProducer : Option (Producer ω)
deriving DecidableEq, Repr

/-- The calls `PostAccount` makes on its collaborators. -/
inductive Call where
  /-- `s.service.PostAccount(ctx, name)`. -/
  | servicePostAccount (name : String) : Call
  /-- `s.kafkaProducer.Publish(ctx, topic, key, value)`. -/
  | Publish (topic key : String) (value : EventMap) : Call
deriving DecidableEq, Repr

/-- What one call of `grpcServer.PostAccount` leaves behind: the two returned values,
the server, the record of the calls made on the service and the producer, in order, and
the record of the messages handed to the writer. -/
structure PostAccountResult (σ ω E : Type) where
  resp : Option PostAccountResponse
  err : Option E
  server : grpcServer σ ω
  calls : List Call
  written : List Message
deriving DecidableEq, Repr

/-- `func (s *grpcServer) PostAccount(ctx, r) (*pb.PostAccountResponse, error)`
(`account/server.go`, lines 37-58). `PostAccount` is the `Service` method of that name:
it returns the created account or an error. The error of `Publish` is logged and
dropped. -/
def grpcServer.PostAccount {σ ω E : Type}
    (PostAccount : σ → String → Except E Account × σ)
    (marshal : EventMap → Bytes × Option E)
    (WriteMessages : ω → Message → Option E × ω)
    (s : grpcServer σ ω) (r : PostAccountRequest) : PostAccountResult σ ω E :=
  match PostAccount s.service r.Name with
  | (.error err, svc) =>
    { resp := none, err := some err, server := { s with service := svc },
      calls := [.servicePostAccount r.Name], written := [] }
  | (.ok a, svc) =>
    match s.kafkaProducer with
    | some p =>
      let event : EventMap :=
        [("event_type", "account.created"), ("account_id", a.ID), ("name", a.Name)]
      let pub := p.Publish marshal WriteMessages "account.events" a.ID event
      { resp := some { Account := { Id := a.ID, Name := a.Name } }, err := none,
        server := { service := svc, kafkaProducer := some pub.producer },
        calls := [.servicePostAccount r.Name, .Publish "account.events" a.ID event],
        written := pub.written }
    | none =>
      { resp := some { Account := { Id := a.ID, Name := a.Name } }, err := none,
        server := { s with service := svc },
        calls := [.servicePostAccount r.Name], written := [] }

/-- The server value that `ListenGRPC(s, kafkaProducer, port)` registers
(`account/server.go`, lines 28-32). -/
def ListenGRPC.server {σ ω : Type} (s : σ) (kafkaProducer : Option (Producer ω)) :
    grpcServer σ ω :=
  { service := s, kafkaProducer := kafkaProducer }

/-- The fields of `Config` in `account/cmd/account/main.go`. -/
structure Config where
  DatabaseURL : String
  KafkaBrokers : String
  KafkaConsumerGroup : String
deriving DecidableEq, Repr

/-- The variable `kafkaProducer` of `main` (`account/cmd/account/main.go`, lines
36-41): nil unless `cfg.KafkaBrokers != ""`, in which case it is
`kafka.NewProducer(cfg.KafkaBrokers)`. -/
def main.kafkaProducer (cfg : Config) : Option (Producer Writer) :=
  if cfg.KafkaBrokers != "" then some (NewProducer cfg.KafkaBrokers) else none

/-- The server `main` starts for the service `s` (lines 44-45):
`account.ListenGRPC(s, kafkaProducer, 8080)`. -/
def main.server {σ : Type} (cfg : Config) (s : σ) : grpcServer σ Writer :=
  ListenGRPC.server s (main.kafkaProducer cfg)

/-! ### Concrete collaborators, used to run the definitions on explicit inputs -/

/-- A service that creates every account under the id `acc-1` and counts its calls. -/
def acceptingService (n : Nat) (name : String) : Except String Account × Nat :=
  (.ok { ID := "acc-1", Name := name }, n + 1)

/-- A service that refuses every account. -/
def refusingService (n : Nat) (_ : String) : Except String Account × Nat :=
  (.error "duplicate account", n)

/-- A serialiser of event maps that always succeeds: it writes the bytes of the entries,
keys before values. -/
def entriesMarshal (event : EventMap) : Bytes × Option String :=
  (event.flatMap (fun kv => bytesOf kv.1 ++ bytesOf kv.2), none)

/-- A writer that refuses every message and counts the messages handed to it. -/
def refusingWriter (n : Nat) (_ : Message) : Option String × Nat :=
  (some "broker unavailable", n + 1)

end account

/-! ## Properties -/

namespace kafka

/-- C2. `Publish` returns a nil error exactly when serialisation succeeds and
`WriteMessages` returns nil on the message built from the arguments; after a successful
serialisation the returned error is the writer's; after a failed one it is the
serialisation error, no message has been handed to the writer and the producer is
unchanged. -/
theorem Publish_nil_iff_acknowledged {ω E V : Type} (marshal : V → Bytes × Option E)
    (WriteMessages : ω → Message → Option E × ω) (p : Producer ω) (topic key : String)
    (value : V) :
    ((p.Publish marshal WriteMessages topic key value).err = none ↔
      (marshal value).2 = none ∧
        (WriteMessages p.writer
          { Topic := topic, Key := bytesOf key, Value := (marshal value).1 }).1 = none) ∧
    ((marshal value).2 = none →
      (p.Publish marshal WriteMessages topic key value).err =
        (WriteMessages p.writer
          { Topic := topic, Key := bytesOf key, Value := (marshal value).1 }).1) ∧
    (∀ e, (marshal value).2 = some e →
      (p.Publish marshal WriteMessages topic key value).err = some e ∧
      (p.Publish marshal WriteMessages topic key value).written = [] ∧
      (p.Publish marshal WriteMessages topic key value).producer = p) := by
  unfold Producer.Publish
  rcases hm : marshal value with ⟨data, _ | e⟩ <;> simp

/-- C3. For a serialisable value, `Publish` hands the writer exactly one message: its
topic is the topic argument, its key the bytes of the key argument, its value the
serialisation of the value argument (partition and offset are left unset); and the
writer is left in the state `WriteMessages` returns for that message. -/
theorem Publish_hands_one_message {ω E V : Type} (marshal : V → Bytes × Option E)
    (WriteMessages : ω → Message → Option E × ω) (p : Producer ω) (topic key : String)
    (value : V) (data : Bytes) (hm : marshal value = (data, none)) :
    (p.Publish marshal WriteMessages topic key value).written =
      [{ Topic := topic, Partition := 0, Offset := 0, Key := bytesOf key, Value := data }] ∧
    (p.Publish marshal WriteMessages topic key value).producer.writer =
      (WriteMessages p.writer { Topic := topic, Key := bytesOf key, Value := data }).2 := by
  unfold Producer.Publish
  simp [hm]

/-- Witness of C3: the value `[1, 2]`, serialised as itself, published to topic `t`
under key `k` through a writer that counts its calls. -/
theorem Publish_hands_one_message_witness :
    ((⟨0⟩ : Producer Nat).Publish (E := Unit) (fun v : Bytes => (v, none))
        (fun n _ => (none, n + 1)) "t" "k" [1, 2]).written =
      [{ Topic := "t", Partition := 0, Offset := 0, Key := bytesOf "k", Value := [1, 2] }] ∧
    ((⟨0⟩ : Producer Nat).Publish (E := Unit) (fun v : Bytes => (v, none))
        (fun n _ => (none, n + 1)) "t" "k" [1, 2]).producer.writer =
      ((fun (n : Nat) (_ : Message) => ((none : Option Unit), n + 1)) 0
        { Topic := "t", Key := bytesOf "k", Value := [1, 2] }).2 :=
  Publish_hands_one_message (fun v : Bytes => (v, none)) (fun n _ => (none, n + 1))
    ⟨0⟩ "t" "k" [1, 2] [1, 2] rfl

section ConsumeLemmas

variable {ρ η E : Type} (ReadMessage : ρ → (Message × Option E) × ρ)
  (handler : η → Bytes → Option E × η)

/-- A returned `Consume` does nothing more. -/
theorem run_returned (n : Nat) (s : ConsumeState ρ η E) (err : Option E)
    (hs : s.ctl = .returned err) : Consumer.run ReadMessage handler n s = s := by
  induction n with
  | zero => rfl
  | succ n ih =>
    have h1 : Consumer.step ReadMessage handler s = s := by
      unfold Consumer.step
      rw [hs]
    rw [Consumer.run, h1, ih]

/-- A failed read makes `Consume` return the read error, the handler untouched. -/
theorem run_read_error (n : Nat) (r : ρ) (h : η) (inv : List Bytes) (e : E)
    (hr : (ReadMessage r).1.2 = some e) :
    Consumer.run ReadMessage handler (n + 1)
        { ctl := .reading, consumer := { reader := r }, handlerState := h, invoked := inv } =
      { ctl := .returned (some e), consumer := { reader := (ReadMessage r).2 },
        handlerState := h, invoked := inv } := by
  rw [Consumer.run]
  have h1 : Consumer.step ReadMessage handler
      { ctl := .reading, consumer := { reader := r }, handlerState := h, invoked := inv } =
      { ctl := .returned (some e), consumer := { reader := (ReadMessage r).2 },
        handlerState := h, invoked := inv } := by
    simp [Consumer.step, hr]
  rw [h1]
  exact run_returned ReadMessage handler n _ (some e) rfl

/-- A successful read leads to the handler call on the value of the message read. -/
theorem step_read_ok (r : ρ) (h : η) (inv : List Bytes) (m : Message)
    (hr : (ReadMessage r).1 = (m, none)) :
    Consumer.step ReadMessage handler
        { ctl := .reading, consumer := { reader := r }, handlerState := h, invoked := inv } =
      { ctl := .handling m, consumer := { reader := (ReadMessage r).2 },
        handlerState := h, invoked := inv } := by
  simp [Consumer.step, hr]

/-- The handler call records the payload and returns to the top of the loop, whatever
the handler answers. -/
theorem step_handling (c : Consumer ρ) (h : η) (inv : List Bytes) (m : Message) :
    Consumer.step ReadMessage handler
        { ctl := .handling m, consumer := c, handlerState := h, invoked := inv } =
      { ctl := .reading, consumer := c, handlerState := (handler h m.Value).2,
        invoked := inv ++ [m.Value] } := by
  simp [Consumer.step]

/-- Two actions after a successful read the loop is at its top again, one handler call
later. -/
theorem run_read_ok (n : Nat) (r : ρ) (h : η) (inv : List Bytes) (m : Message)
    (hr : (ReadMessage r).1 = (m, none)) :
    Consumer.run ReadMessage handler (n + 2)
        { ctl := .reading, consumer := { reader := r }, handlerState := h, invoked := inv } =
      Consumer.run ReadMessage handler n
        { ctl := .reading, consumer := { reader := (ReadMessage r).2 },
          handlerState := (handler h m.Value).2, invoked := inv ++ [m.Value] } := by
  rw [Consumer.run, Consumer.run, step_read_ok ReadMessage handler r h inv m hr,
    step_handling]

/-- Along a reader that yields `msgs` and then fails with `e`: after `n` actions the
handler has been invoked on the values of the first `n / 2` messages, its closure is in
the state these invocations leave, and from action `2 * msgs.length + 1` on the call
has returned `e`. -/
theorem run_yields (msgs : List Message) (e : E) :
    ∀ (n : Nat) (r : ρ) (h : η) (inv : List Bytes), yields ReadMessage r msgs e →
      (Consumer.run ReadMessage handler n
          { ctl := .reading, consumer := { reader := r }, handlerState := h,
            invoked := inv }).invoked = inv ++ (msgs.map (·.Value)).take (n / 2) ∧
      (Consumer.run ReadMessage handler n
          { ctl := .reading, consumer := { reader := r }, handlerState := h,
            invoked := inv }).handlerState =
        handlerAfter handler h ((msgs.map (·.Value)).take (n / 2)) ∧
      (2 * msgs.length + 1 ≤ n →
        (Consumer.run ReadMessage handler n
          { ctl := .reading, consumer := { reader := r }, handlerState := h,
            invoked := inv }).ctl = .returned (some e)) := by
  induction msgs with
  | nil =>
    intro n r h inv hy
    cases n with
    | zero => simp [Consumer.run, handlerAfter]
    | succ n =>
      rw [run_read_error ReadMessage handler n r h inv e hy]
      simp [handlerAfter]
  | cons m ms ih =>
    intro n r h inv hy
    obtain ⟨hm, hrest⟩ := hy
    match n with
    | 0 => simp [Consumer.run, handlerAfter]
    | 1 =>
      simp [Consumer.run, step_read_ok ReadMessage handler r h inv m hm, handlerAfter]
    | k + 2 =>
      rw [run_read_ok ReadMessage handler k r h inv m hm]
      obtain ⟨h1, h2, h3⟩ :=
        ih k (ReadMessage r).2 (handler h m.Value).2 (inv ++ [m.Value]) hrest
      refine ⟨?_, ?_, fun hk => h3 ?_⟩
      · rw [h1]
        simp
      · rw [h2]
        simp [handlerAfter]
      · simp only [List.length_cons] at hk
        omega

/-- A `Consume` that has returned went through a reader that yielded some messages and
then failed; it returns that failure and the handler saw those messages only. -/
theorem run_returned_inv :
    ∀ (n : Nat) (r : ρ) (h : η) (inv : List Bytes) (err : Option E),
      (Consumer.run ReadMessage handler n
          { ctl := .reading, consumer := { reader := r }, handlerState := h,
            invoked := inv }).ctl = .returned err →
      ∃ msgs e, yields ReadMessage r msgs e ∧ err = some e ∧
        (Consumer.run ReadMessage handler n
          { ctl := .reading, consumer := { reader := r }, handlerState := h,
            invoked := inv }).invoked = inv ++ msgs.map (·.Value) := by
  intro n
  induction n using Nat.strong_induction_on with
  | _ n ih =>
    intro r h inv err hret
    rcases hr : ReadMessage r with ⟨⟨m, _ | e⟩, r1⟩
    · have hm : (ReadMessage r).1 = (m, none) := by rw [hr]
      match n, ih, hret with
      | 0, _, hret => simp [Consumer.run] at hret
      | 1, _, hret =>
        simp [Consumer.run, step_read_ok ReadMessage handler r h inv m hm] at hret
      | k + 2, ih, hret =>
        rw [run_read_ok ReadMessage handler k r h inv m hm] at hret ⊢
        obtain ⟨msgs, e, hy, he, hinv⟩ := ih k (by omega) _ _ _ _ hret
        exact ⟨m :: msgs, e, ⟨hm, hy⟩, he, by rw [hinv]; simp⟩
    · have he : (ReadMessage r).1.2 = some e := by rw [hr]
      match n, hret with
      | 0, hret => simp [Consumer.run] at hret
      | k + 1, hret =>
        rw [run_read_error ReadMessage handler k r h inv e he] at hret ⊢
        refine ⟨[], e, he, ?_, by simp⟩
        simpa using hret.symm

end ConsumeLemmas

/-- C1. Let the reader return the messages `msgs` successfully and then fail with `e`.
Whatever the handler answers on each message, after any number `n` of actions of the
loop the handler has been invoked exactly on the values of the first `n / 2` messages,
once each and in read order, and its closure is in the state that these invocations, in
this order, leave; from action `2 * msgs.length + 1` on, `Consume` has returned, the
handler has been invoked on the value of every message of `msgs`, once each, in read
order, and its closure is in the state that exactly these invocations leave. -/
theorem Consume_invokes_handler_once_in_order {ρ η E : Type}
    (ReadMessage : ρ → (Message × Option E) × ρ) (handler : η → Bytes → Option E × η)
    (c : Consumer ρ) (h : η) (msgs : List Message) (e : E)
    (hy : yields ReadMessage c.reader msgs e) :
    (∀ n, (c.Consume ReadMessage handler h n).invoked =
        (msgs.map (·.Value)).take (n / 2) ∧
      (c.Consume ReadMessage handler h n).handlerState =
        handlerAfter handler h ((msgs.map (·.Value)).take (n / 2))) ∧
    (∀ n, 2 * msgs.length + 1 ≤ n →
      (c.Consume ReadMessage handler h n).ctl = .returned (some e) ∧
      (c.Consume ReadMessage handler h n).invoked = msgs.map (·.Value) ∧
      (c.Consume ReadMessage handler h n).handlerState =
        handlerAfter handler h (msgs.map (·.Value))) := by
  have key := fun n => run_yields ReadMessage handler msgs e n c.reader h [] hy
  have full : ∀ n, 2 * msgs.length + 1 ≤ n →
      (msgs.map (·.Value)).take (n / 2) = msgs.map (·.Value) := by
    intro n hn
    apply List.take_of_length_le
    simp only [List.length_map]
    omega
  refine ⟨fun n => ⟨?_, (key n).2.1⟩, fun n hn => ⟨(key n).2.2 hn, ?_, ?_⟩⟩
  · simpa [Consumer.Consume] using (key n).1
  · have h1 := (key n).1
    simp only [List.nil_append] at h1
    rw [Consumer.Consume, h1, full n hn]
  · have h2 := (key n).2.1
    rw [full n hn] at h2
    exact h2

/-- C8. `Consume` never returns nil and returns only on a read failure: whenever it has
returned, the reader had yielded some messages and then an error, the returned value is
that error, and the handler was invoked on the values of the messages before the error
and on nothing else; conversely, when the reader fails after finitely many messages,
`Consume` returns that error. -/
theorem Consume_returns_iff_read_error {ρ η E : Type}
    (ReadMessage : ρ → (Message × Option E) × ρ) (handler : η → Bytes → Option E × η)
    (c : Consumer ρ) (h : η) :
    (∀ n err, (c.Consume ReadMessage handler h n).ctl = .returned err →
      ∃ msgs e, yields ReadMessage c.reader msgs e ∧ err = some e ∧
        (c.Consume ReadMessage handler h n).invoked = msgs.map (·.Value)) ∧
    (∀ msgs e, yields ReadMessage c.reader msgs e →
      ∃ n, ∀ k, n ≤ k → (c.Consume ReadMessage handler h k).ctl = .returned (some e)) := by
  refine ⟨fun n err hret => ?_, fun msgs e hy => ⟨2 * msgs.length + 1, fun k hk => ?_⟩⟩
  · obtain ⟨msgs, e, hy, he, hinv⟩ :=
      run_returned_inv ReadMessage handler n c.reader h [] err hret
    exact ⟨msgs, e, hy, he, by simpa [Consumer.Consume] using hinv⟩
  · exact (run_yields ReadMessage handler msgs e k c.reader h [] hy).2.2 hk

/-- Witness of C1: a reader that yields two messages and then fails, and a handler that
fails on every message and counts its invocations; from the fifth action on the call
has returned, the handler has seen both values and has counted two invocations. -/
theorem Consume_invokes_handler_once_in_order_witness :
    yields (scriptRead "eof") [firstEvent, { firstEvent with Offset := 1, Value := [1] }]
      [firstEvent, { firstEvent with Offset := 1, Value := [1] }] "eof" ∧
    handlerAfter failingHandler 0 [[123, 125], [1]] = 2 ∧
    (∀ n, 2 * [firstEvent, { firstEvent with Offset := 1, Value := [1] }].length + 1 ≤ n →
      ((⟨[firstEvent, { firstEvent with Offset := 1, Value := [1] }]⟩ :
        Consumer (List Message)).Consume (scriptRead "eof") failingHandler 0 n).ctl =
          .returned (some "eof") ∧
      ((⟨[firstEvent, { firstEvent with Offset := 1, Value := [1] }]⟩ :
        Consumer (List Message)).Consume (scriptRead "eof") failingHandler 0 n).invoked =
          [firstEvent, { firstEvent with Offset := 1, Value := [1] }].map (·.Value) ∧
      ((⟨[firstEvent, { firstEvent with Offset := 1, Value := [1] }]⟩ :
        Consumer (List Message)).Consume (scriptRead "eof") failingHandler 0
          n).handlerState =
        handlerAfter failingHandler 0
          ([firstEvent, { firstEvent with Offset := 1, Value := [1] }].map (·.Value))) :=
  ⟨⟨rfl, rfl, rfl⟩, rfl,
    (Consume_invokes_handler_once_in_order (scriptRead "eof") failingHandler
      ⟨[firstEvent, { firstEvent with Offset := 1, Value := [1] }]⟩ 0
      [firstEvent, { firstEvent with Offset := 1, Value := [1] }] "eof" ⟨rfl, rfl, rfl⟩).2⟩

section GroupReader

variable {η E : Type} (fetch : Nat → Message × Option E) (commit : Message → Option E)
  (handler : η → Bytes → Option E × η)

/-- One action of the loop preserves `commitsLead`. -/
theorem commitsLead_step (s : ConsumeState Reader η E) (hs : commitsLead s) :
    commitsLead (Consumer.step (Reader.ReadMessage fetch commit) handler s) := by
  obtain ⟨hg, hc⟩ := hs
  rcases s with ⟨ctl, ⟨r⟩, h, inv⟩
  have hg1 : r.config.GroupID ≠ "" := by
    simpa [Reader.useConsumerGroup] using hg
  cases ctl with
  | reading =>
    simp only at hc
    rcases hf : fetch r.fetched with ⟨m, _ | e⟩
    · rcases hcm : commit m with _ | e
      · simp [Consumer.step, Reader.ReadMessage, hf, hcm, commitsLead, hc,
          Reader.useConsumerGroup, hg1]
      · simp [Consumer.step, Reader.ReadMessage, hf, hcm, commitsLead, hc,
          Reader.useConsumerGroup, hg1]
    · simp [Consumer.step, Reader.ReadMessage, hf, commitsLead, hc,
        Reader.useConsumerGroup, hg1]
  | handling m =>
    simp only at hc
    simp [Consumer.step, commitsLead, Reader.useConsumerGroup, hg1, hc.2]
  | returned err =>
    simp only at hc
    simp [Consumer.step, commitsLead, Reader.useConsumerGroup, hg1, hc]

/-- Every number of actions of the loop preserves `commitsLead`. -/
theorem commitsLead_run (n : Nat) :
    ∀ s : ConsumeState Reader η E, commitsLead s →
      commitsLead (Consumer.run (Reader.ReadMessage fetch commit) handler n s) := by
  induction n with
  | zero => intro s hs; exact hs
  | succ n ih =>
    intro s hs
    exact ih _ (commitsLead_step fetch commit handler s hs)

end GroupReader

/-- C6, as stated, fails. A consumer of group `analytics` reads `firstEvent`: after the
first action of `Consume` the handler is still to be invoked on the message (nothing
has been handled yet) and the message is already committed for the group. -/
theorem Consume_commits_before_handler :
    ((NewConsumer "localhost:9092" "analytics" "account.events").Consume
        (Reader.ReadMessage fetchFirstEvent commitOk) failingHandler 0 1).ctl =
      .handling firstEvent ∧
    ((NewConsumer "localhost:9092" "analytics" "account.events").Consume
        (Reader.ReadMessage fetchFirstEvent commitOk) failingHandler 0 1).invoked = [] ∧
    ((NewConsumer "localhost:9092" "analytics" "account.events").Consume
        (Reader.ReadMessage fetchFirstEvent commitOk) failingHandler 0 1).consumer.reader.committed =
      [firstEvent] := by
  refine ⟨?_, ?_, ?_⟩ <;> rfl

/-- C6, amended. For a consumer that `NewConsumer` builds with a non-empty group id,
the position is advanced by `ReadMessage`, before the handler runs: whenever the
handler is about to be invoked on a message, that message is the last one committed and
the committed messages are the handled ones followed by it; at every other point of the
loop the committed messages are exactly the handled ones, so the handler call and its
return commit nothing. -/
theorem Consume_position_advances_at_read {η E : Type} (fetch : Nat → Message × Option E)
    (commit : Message → Option E) (handler : η → Bytes → Option E × η)
    (brokers groupID topic : String) (h : η) (hg : groupID ≠ "") :
    (∀ n m,
      ((NewConsumer brokers groupID topic).Consume (Reader.ReadMessage fetch commit)
          handler h n).ctl = .handling m →
        ((NewConsumer brokers groupID topic).Consume (Reader.ReadMessage fetch commit)
          handler h n).consumer.reader.committed.getLast? = some m ∧
        ((NewConsumer brokers groupID topic).Consume (Reader.ReadMessage fetch commit)
          handler h n).consumer.reader.committed.map (·.Value) =
          ((NewConsumer brokers groupID topic).Consume (Reader.ReadMessage fetch commit)
            handler h n).invoked ++ [m.Value]) ∧
    (∀ n,
      (∀ m, ((NewConsumer brokers groupID topic).Consume (Reader.ReadMessage fetch commit)
          handler h n).ctl ≠ .handling m) →
        ((NewConsumer brokers groupID topic).Consume (Reader.ReadMessage fetch commit)
          handler h n).consumer.reader.committed.map (·.Value) =
          ((NewConsumer brokers groupID topic).Consume (Reader.ReadMessage fetch commit)
            handler h n).invoked) := by
  have key : ∀ n, commitsLead ((NewConsumer brokers groupID topic).Consume
      (Reader.ReadMessage fetch commit) handler h n) := by
    intro n
    apply commitsLead_run
    simp [commitsLead, NewConsumer, Reader.useConsumerGroup, hg]
  refine ⟨fun n m hm => ?_, fun n hm => ?_⟩
  · have h1 := (key n).2
    rw [hm] at h1
    exact h1
  · have h1 := (key n).2
    revert h1 hm
    cases ((NewConsumer brokers groupID topic).Consume (Reader.ReadMessage fetch commit)
      handler h n).ctl with
    | reading => intro _ h1; exact h1
    | handling m => intro hm _; exact absurd rfl (hm m)
    | returned err => intro _ h1; exact h1

/-- Witness of C6, amended: the group `analytics` reading `firstEvent`, one action into
the loop. -/
theorem Consume_position_advances_at_read_witness :
    "analytics" ≠ "" ∧
    ((NewConsumer "localhost:9092" "analytics" "account.events").Consume
        (Reader.ReadMessage fetchFirstEvent commitOk) failingHandler 0
          1).consumer.reader.committed.getLast? = some firstEvent ∧
    ((NewConsumer "localhost:9092" "analytics" "account.events").Consume
        (Reader.ReadMessage fetchFirstEvent commitOk) failingHandler 0
          1).consumer.reader.committed.map (·.Value) =
      ((NewConsumer "localhost:9092" "analytics" "account.events").Consume
        (Reader.ReadMessage fetchFirstEvent commitOk) failingHandler 0 1).invoked ++
        [firstEvent.Value] :=
  ⟨by decide,
    (Consume_position_advances_at_read fetchFirstEvent commitOk failingHandler
      "localhost:9092" "analytics" "account.events" 0 (by decide)).1 1 firstEvent rfl⟩

/-- The scan of `Balance` stays inside the counters. -/
theorem scan_lt (cs : List leastBytesCounter) :
    ∀ minBytes minIndex i : Nat, minIndex < i →
      LeastBytes.scan minBytes minIndex i cs < i + cs.length := by
  induction cs with
  | nil => intro minBytes minIndex i h; simpa [LeastBytes.scan] using h
  | cons c cs ih =>
    intro minBytes minIndex i h
    unfold LeastBytes.scan
    split
    · have := ih c.bytes i (i + 1) (by omega)
      simp only [List.length_cons]
      omega
    · have := ih minBytes minIndex (i + 1) (by omega)
      simp only [List.length_cons]
      omega

/-- On a non-empty partition list `Balance` returns a partition. -/
theorem Balance_isSome (lb : LeastBytes) (msg : Message) (p : Int) (ps : List Int) :
    (lb.Balance msg (p :: ps)).isSome = true := by
  unfold LeastBytes.Balance
  simp only []
  generalize hc : (if (p :: ps).length ≠ lb.counters.length then
    LeastBytes.makeCounters (p :: ps) else lb.counters) = counters
  have hlen : counters.length = ps.length + 1 := by
    subst hc
    split
    · rw [LeastBytes.makeCounters, List.length_map, List.length_insertionSort]
      rfl
    · rename_i h
      simp only [List.length_cons, ne_eq, not_not] at h
      omega
  cases counters with
  | nil => simp at hlen
  | cons c0 rest =>
    have hlt := scan_lt rest c0.bytes 0 1 (by omega)
    have hlt2 : LeastBytes.scan c0.bytes 0 1 rest < (c0 :: rest).length := by
      simp only [List.length_cons]
      omega
    simp only [Option.isSome_map']
    rw [List.get?_eq_get hlt2]
    rfl

/-- The partition `Balance` returns does not depend on the message. -/
theorem Balance_partition_ignores_message (lb : LeastBytes) (m1 m2 : Message)
    (partitions : List Int) :
    (lb.Balance m1 partitions).map Prod.fst = (lb.Balance m2 partitions).map Prod.fst := by
  unfold LeastBytes.Balance
  simp only []
  split
  · rfl
  · simp [Option.map_map, Function.comp_def]

/-- C5, as stated, fails. On brokers where the topic has two partitions, a producer
built by `NewProducer` publishes the same value twice to `account.events` under the key
`acc-1`: both writes are acknowledged, the first message is routed to partition 0 and
the second to partition 1. -/
theorem Publish_same_key_different_partitions :
    ((NewProducer "localhost:9092").Publish rawMarshal (Writer.WriteMessages twoPartitions)
        "account.events" "acc-1" [123, 125]).err = none ∧
    ((((NewProducer "localhost:9092").Publish rawMarshal
        (Writer.WriteMessages twoPartitions) "account.events" "acc-1"
          [123, 125]).producer.Publish rawMarshal (Writer.WriteMessages twoPartitions)
        "account.events" "acc-1" [123, 125]).err = none) ∧
    ((((NewProducer "localhost:9092").Publish rawMarshal
        (Writer.WriteMessages twoPartitions) "account.events" "acc-1"
          [123, 125]).producer.Publish rawMarshal (Writer.WriteMessages twoPartitions)
        "account.events" "acc-1" [123, 125]).producer.writer.routed =
      [(0, { Topic := "account.events", Key := bytesOf "acc-1", Value := [123, 125] }),
       (1, { Topic := "account.events", Key := bytesOf "acc-1", Value := [123, 125] })]) := by
  refine ⟨?_, ?_, ?_⟩ <;> rfl

/-- C5, amended. For a producer built by `NewProducer` (its balancer is `LeastBytes`)
the partition of a published message is chosen from the bytes the writer has routed so
far and the partitions of the topic, not from the key: published from the same producer
state to the same topic, two serialisable values are routed to the same partition
whatever their keys. -/
theorem Publish_partition_ignores_key {E V : Type} (marshal : V → Bytes × Option E)
    (cluster : Cluster E) (p : Producer Writer) (topic key1 key2 : String) (v1 v2 : V)
    (h1 : (marshal v1).2 = none) (h2 : (marshal v2).2 = none) :
    ((p.Publish marshal (Writer.WriteMessages cluster) topic key1
        v1).producer.writer.routed.map Prod.fst) =
      ((p.Publish marshal (Writer.WriteMessages cluster) topic key2
        v2).producer.writer.routed.map Prod.fst) := by
  rcases hm1 : marshal v1 with ⟨d1, e1⟩
  rcases hm2 : marshal v2 with ⟨d2, e2⟩
  rw [hm1] at h1
  rw [hm2] at h2
  simp only at h1 h2
  subst h1 h2
  have hb := Balance_partition_ignores_message p.writer.Balancer
    { Topic := topic, Key := bytesOf key1, Value := d1 }
    { Topic := topic, Key := bytesOf key2, Value := d2 }
    ((cluster.partitions topic).1 :: (cluster.partitions topic).2)
  unfold Producer.Publish Writer.WriteMessages
  simp only [hm1, hm2]
  rcases hb1 : p.writer.Balancer.Balance
      { Topic := topic, Key := bytesOf key1, Value := d1 }
      ((cluster.partitions topic).1 :: (cluster.partitions topic).2)
    with _ | ⟨q1, lb1⟩ <;>
  rcases hb2 : p.writer.Balancer.Balance
      { Topic := topic, Key := bytesOf key2, Value := d2 }
      ((cluster.partitions topic).1 :: (cluster.partitions topic).2)
    with _ | ⟨q2, lb2⟩ <;>
  rw [hb1, hb2] at hb <;> simp at hb ⊢
  exact hb

/-- Witness of C5, amended: from a fresh producer, the keys `acc-1` and `acc-2` with
two different values go to the same partition. -/
theorem Publish_partition_ignores_key_witness :
    (rawMarshal [1]).2 = none ∧ (rawMarshal [2, 3]).2 = none ∧
    (((NewProducer "localhost:9092").Publish rawMarshal (Writer.WriteMessages twoPartitions)
        "account.events" "acc-1" [1]).producer.writer.routed.map Prod.fst) =
      (((NewProducer "localhost:9092").Publish rawMarshal
        (Writer.WriteMessages twoPartitions) "account.events" "acc-2"
          [2, 3]).producer.writer.routed.map Prod.fst) :=
  ⟨rfl, rfl,
    Publish_partition_ignores_key rawMarshal twoPartitions (NewProducer "localhost:9092")
      "account.events" "acc-1" "acc-2" [1] [2, 3] rfl rfl⟩

end kafka

namespace account

open kafka

/-- C4. When the service creates account `a` and a producer is configured,
`PostAccount` calls `Publish` on that producer with topic `account.events`, key `a.ID`
and the map of exactly the three entries `event_type = account.created`,
`account_id = a.ID`, `name = a.Name`: the call is recorded after the service call, the
producer of the server is the one this `Publish` call leaves, and what reached the
writer is what this call handed to it. When the map serialises, that is the single
message with that topic, the bytes of `a.ID` as key and the serialised map as value,
and the writer is in the state `WriteMessages` leaves on that message. -/
theorem PostAccount_publishes_account_created {σ ω E : Type}
    (PostAccount : σ → String → Except E Account × σ)
    (marshal : EventMap → Bytes × Option E) (WriteMessages : ω → Message → Option E × ω)
    (s : grpcServer σ ω) (r : PostAccountRequest) (p : Producer ω) (a : Account) (svc : σ)
    (hp : s.kafkaProducer = some p) (hs : PostAccount s.service r.Name = (.ok a, svc)) :
    (s.PostAccount PostAccount marshal WriteMessages r).calls =
      [.servicePostAccount r.Name,
       .Publish "account.events" a.ID
          [("event_type", "account.created"), ("account_id", a.ID), ("name", a.Name)]] ∧
    (s.PostAccount PostAccount marshal WriteMessages r).server.kafkaProducer =
      some (p.Publish marshal WriteMessages "account.events" a.ID
        [("event_type", "account.created"), ("account_id", a.ID),
          ("name", a.Name)]).producer ∧
    (s.PostAccount PostAccount marshal WriteMessages r).written =
      (p.Publish marshal WriteMessages "account.events" a.ID
        [("event_type", "account.created"), ("account_id", a.ID),
          ("name", a.Name)]).written ∧
    ((marshal [("event_type", "account.created"), ("account_id", a.ID),
        ("name", a.Name)]).2 = none →
      (s.PostAccount PostAccount marshal WriteMessages r).written =
        [{ Topic := "account.events", Key := bytesOf a.ID,
           Value := (marshal [("event_type", "account.created"), ("account_id", a.ID),
              ("name", a.Name)]).1 }] ∧
      (s.PostAccount PostAccount marshal WriteMessages r).server.kafkaProducer =
        some { writer := (WriteMessages p.writer
          { Topic := "account.events", Key := bytesOf a.ID,
            Value := (marshal [("event_type", "account.created"), ("account_id", a.ID),
              ("name", a.Name)]).1 }).2 }) := by
  refine ⟨?_, ?_, ?_, fun hm => ?_⟩
  · simp [grpcServer.PostAccount, hs, hp]
  · simp [grpcServer.PostAccount, hs, hp]
  · simp [grpcServer.PostAccount, hs, hp]
  · rcases hm1 : marshal [("event_type", "account.created"), ("account_id", a.ID),
      ("name", a.Name)] with ⟨d, e⟩
    rw [hm1] at hm
    simp only at hm
    subst hm
    simp [grpcServer.PostAccount, hs, hp, Producer.Publish, hm1]

/-- Witness of C4: the account `Ada` created behind a producer whose writer counts the
messages handed to it and refuses them: the call is recorded, one message reaches the
writer and the counter goes from 7 to 8. -/
theorem PostAccount_publishes_account_created_witness :
    ((ListenGRPC.server (0 : Nat) (some (⟨7⟩ : Producer Nat))).PostAccount
        acceptingService entriesMarshal refusingWriter { Name := "Ada" }).calls =
      [.servicePostAccount "Ada",
       .Publish "account.events" "acc-1"
          [("event_type", "account.created"), ("account_id", "acc-1"), ("name", "Ada")]] ∧
    ((ListenGRPC.server (0 : Nat) (some (⟨7⟩ : Producer Nat))).PostAccount
        acceptingService entriesMarshal refusingWriter
        { Name := "Ada" }).server.kafkaProducer = some ⟨8⟩ ∧
    ((ListenGRPC.server (0 : Nat) (some (⟨7⟩ : Producer Nat))).PostAccount
        acceptingService entriesMarshal refusingWriter { Name := "Ada" }).written =
      [{ Topic := "account.events", Key := bytesOf "acc-1",
         Value := (entriesMarshal [("event_type", "account.created"),
            ("account_id", "acc-1"), ("name", "Ada")]).1 }] :=
  have h := PostAccount_publishes_account_created acceptingService entriesMarshal
    refusingWriter (ListenGRPC.server (0 : Nat) (some (⟨7⟩ : Producer Nat)))
    { Name := "Ada" } ⟨7⟩ { ID := "acc-1", Name := "Ada" } 1 rfl rfl
  ⟨h.1, (h.2.2.2 rfl).2, (h.2.2.2 rfl).1⟩

/-- C7. With a producer `p` configured, `PostAccount` first calls the service and then:
when the service created account `a`, it makes exactly one `Publish` call, after the
service call and keyed by `a.ID`: the producer of the server is the one a single
`Publish` on `p` leaves, what reached the writer is what that one call handed to it (at
most one message), and the service is in the state its call left; when the service
failed with `e`, it makes no `Publish` call: the producer is `p` unchanged, nothing
reached the writer, and the response is nil with the error `e`. -/
theorem PostAccount_one_publish_per_success {σ ω E : Type}
    (PostAccount : σ → String → Except E Account × σ)
    (marshal : EventMap → Bytes × Option E) (WriteMessages : ω → Message → Option E × ω)
    (s : grpcServer σ ω) (r : PostAccountRequest) (p : Producer ω)
    (hp : s.kafkaProducer = some p) :
    (∀ a svc, PostAccount s.service r.Name = (.ok a, svc) →
      ∃ value,
        (s.PostAccount PostAccount marshal WriteMessages r).calls =
          [.servicePostAccount r.Name, .Publish "account.events" a.ID value] ∧
        (s.PostAccount PostAccount marshal WriteMessages r).server.kafkaProducer =
          some (p.Publish marshal WriteMessages "account.events" a.ID value).producer ∧
        (s.PostAccount PostAccount marshal WriteMessages r).written =
          (p.Publish marshal WriteMessages "account.events" a.ID value).written ∧
        (s.PostAccount PostAccount marshal WriteMessages r).written.length ≤ 1 ∧
        (s.PostAccount PostAccount marshal WriteMessages r).server.service = svc) ∧
    (∀ e svc, PostAccount s.service r.Name = (.error e, svc) →
      (s.PostAccount PostAccount marshal WriteMessages r).calls =
          [.servicePostAccount r.Name] ∧
        (s.PostAccount PostAccount marshal WriteMessages r).server.kafkaProducer =
          some p ∧
        (s.PostAccount PostAccount marshal WriteMessages r).written = [] ∧
        (s.PostAccount PostAccount marshal WriteMessages r).server.service = svc ∧
        (s.PostAccount PostAccount marshal WriteMessages r).resp = none ∧
        (s.PostAccount PostAccount marshal WriteMessages r).err = some e) := by
  refine ⟨fun a svc hs => ?_, fun e svc hs => ?_⟩
  · refine ⟨[("event_type", "account.created"), ("account_id", a.ID), ("name", a.Name)],
      ?_, ?_, ?_, ?_, ?_⟩
    · simp [grpcServer.PostAccount, hs, hp]
    · simp [grpcServer.PostAccount, hs, hp]
    · simp [grpcServer.PostAccount, hs, hp]
    · simp only [grpcServer.PostAccount, hs, hp, Producer.Publish]
      rcases marshal [("event_type", "account.created"), ("account_id", a.ID),
        ("name", a.Name)] with ⟨d, _ | e⟩ <;> simp
    · simp [grpcServer.PostAccount, hs, hp]
  · simp [grpcServer.PostAccount, hs, hp]

/-- Witness of C7: a producer whose writer counts the messages handed to it, from 7.
Behind a service that creates the account, one `Publish` call is recorded, one message
reaches the writer and the counter is 8; behind a service that refuses it, no such call
is recorded, nothing reaches the writer and the counter stays 7. -/
theorem PostAccount_one_publish_per_success_witness :
    (∃ value,
      ((ListenGRPC.server (0 : Nat) (some (⟨7⟩ : Producer Nat))).PostAccount
          acceptingService entriesMarshal refusingWriter { Name := "Ada" }).calls =
        [.servicePostAccount "Ada", .Publish "account.events" "acc-1" value] ∧
      ((ListenGRPC.server (0 : Nat) (some (⟨7⟩ : Producer Nat))).PostAccount
          acceptingService entriesMarshal refusingWriter
          { Name := "Ada" }).server.kafkaProducer =
        some ((⟨7⟩ : Producer Nat).Publish entriesMarshal refusingWriter "account.events"
          "acc-1" value).producer ∧
      ((ListenGRPC.server (0 : Nat) (some (⟨7⟩ : Producer Nat))).PostAccount
          acceptingService entriesMarshal refusingWriter { Name := "Ada" }).written =
        ((⟨7⟩ : Producer Nat).Publish entriesMarshal refusingWriter "account.events"
          "acc-1" value).written ∧
      ((ListenGRPC.server (0 : Nat) (some (⟨7⟩ : Producer Nat))).PostAccount
          acceptingService entriesMarshal refusingWriter
          { Name := "Ada" }).written.length ≤ 1 ∧
      ((ListenGRPC.server (0 : Nat) (some (⟨7⟩ : Producer Nat))).PostAccount
          acceptingService entriesMarshal refusingWriter
          { Name := "Ada" }).server.service = 1) ∧
    ((ListenGRPC.server (0 : Nat) (some (⟨7⟩ : Producer Nat))).PostAccount
        acceptingService entriesMarshal refusingWriter
        { Name := "Ada" }).server.kafkaProducer = some ⟨8⟩ ∧
    (((ListenGRPC.server (0 : Nat) (some (⟨7⟩ : Producer Nat))).PostAccount
        refusingService entriesMarshal refusingWriter { Name := "Ada" }).calls =
        [.servicePostAccount "Ada"] ∧
      ((ListenGRPC.server (0 : Nat) (some (⟨7⟩ : Producer Nat))).PostAccount
        refusingService entriesMarshal refusingWriter
        { Name := "Ada" }).server.kafkaProducer = some ⟨7⟩ ∧
      ((ListenGRPC.server (0 : Nat) (some (⟨7⟩ : Producer Nat))).PostAccount
        refusingService entriesMarshal refusingWriter { Name := "Ada" }).written = [] ∧
      ((ListenGRPC.server (0 : Nat) (some (⟨7⟩ : Producer Nat))).PostAccount
        refusingService entriesMarshal refusingWriter
        { Name := "Ada" }).server.service = 0 ∧
      ((ListenGRPC.server (0 : Nat) (some (⟨7⟩ : Producer Nat))).PostAccount
        refusingService entriesMarshal refusingWriter { Name := "Ada" }).resp = none ∧
      ((ListenGRPC.server (0 : Nat) (some (⟨7⟩ : Producer Nat))).PostAccount
        refusingService entriesMarshal refusingWriter { Name := "Ada" }).err =
        some "duplicate account") :=
  ⟨(PostAccount_one_publish_per_success acceptingService entriesMarshal refusingWriter
      (ListenGRPC.server (0 : Nat) (some (⟨7⟩ : Producer Nat))) { Name := "Ada" } ⟨7⟩
      rfl).1 { ID := "acc-1", Name := "Ada" } 1 rfl,
    rfl,
    (PostAccount_one_publish_per_success refusingService entriesMarshal refusingWriter
      (ListenGRPC.server (0 : Nat) (some (⟨7⟩ : Producer Nat))) { Name := "Ada" } ⟨7⟩
      rfl).2 "duplicate account" 0 rfl⟩

/-- C9. When the service created account `a`, `PostAccount` returns a nil error and the
response with `Id = a.ID` and `Name = a.Name`, for every serialiser and every writer,
hence whether `Publish` returned nil or an error. -/
theorem PostAccount_succeeds_whatever_Publish_returns {σ ω E : Type}
    (PostAccount : σ → String → Except E Account × σ)
    (marshal : EventMap → Bytes × Option E) (WriteMessages : ω → Message → Option E × ω)
    (s : grpcServer σ ω) (r : PostAccountRequest) (a : Account) (svc : σ)
    (hs : PostAccount s.service r.Name = (.ok a, svc)) :
    (s.PostAccount PostAccount marshal WriteMessages r).err = none ∧
    (s.PostAccount PostAccount marshal WriteMessages r).resp =
      some { Account := { Id := a.ID, Name := a.Name } } := by
  unfold grpcServer.PostAccount
  simp only [hs]
  cases s.kafkaProducer <;> exact ⟨rfl, rfl⟩

/-- Witness of C9: the account is created although the writer refuses the event. -/
theorem PostAccount_succeeds_whatever_Publish_returns_witness :
    ((⟨7⟩ : Producer Nat).Publish entriesMarshal refusingWriter "account.events" "acc-1"
        [("event_type", "account.created"), ("account_id", "acc-1"), ("name", "Ada")]).err =
      some "broker unavailable" ∧
    ((ListenGRPC.server (0 : Nat) (some (⟨7⟩ : Producer Nat))).PostAccount
        acceptingService entriesMarshal refusingWriter { Name := "Ada" }).err = none ∧
    ((ListenGRPC.server (0 : Nat) (some (⟨7⟩ : Producer Nat))).PostAccount
        acceptingService entriesMarshal refusingWriter { Name := "Ada" }).resp =
      some { Account := { Id := "acc-1", Name := "Ada" } } :=
  ⟨rfl,
    PostAccount_succeeds_whatever_Publish_returns acceptingService entriesMarshal
      refusingWriter (ListenGRPC.server (0 : Nat) (some (⟨7⟩ : Producer Nat)))
      { Name := "Ada" } { ID := "acc-1", Name := "Ada" } 1 rfl⟩

/-- C10. `main` builds a producer exactly when `KAFKA_BROKERS` is non-empty, namely
`NewProducer` of that setting, and hands the server this producer or nil; a server with
a nil producer calls the service only, makes no `Publish` call, hands nothing to a
writer, and returns the response and error that a server with any producer returns. -/
theorem PostAccount_skips_publish_without_producer :
    (∀ cfg : Config, (main.kafkaProducer cfg).isSome = true ↔ cfg.KafkaBrokers ≠ "") ∧
    (∀ cfg : Config, cfg.KafkaBrokers ≠ "" →
      main.kafkaProducer cfg = some (NewProducer cfg.KafkaBrokers)) ∧
    (∀ (σ : Type) (cfg : Config) (svc : σ),
      (main.server cfg svc).kafkaProducer = main.kafkaProducer cfg ∧
      (main.server cfg svc).service = svc) ∧
    (∀ (σ ω E : Type) (PostAccount : σ → String → Except E Account × σ)
      (marshal : EventMap → Bytes × Option E) (WriteMessages : ω → Message → Option E × ω)
      (s : grpcServer σ ω) (r : PostAccountRequest), s.kafkaProducer = none →
        (s.PostAccount PostAccount marshal WriteMessages r).calls =
          [.servicePostAccount r.Name] ∧
        (s.PostAccount PostAccount marshal WriteMessages r).written = [] ∧
        (s.PostAccount PostAccount marshal WriteMessages r).server.kafkaProducer = none ∧
        ∀ p : Producer ω,
          (s.PostAccount PostAccount marshal WriteMessages r).resp =
            (grpcServer.PostAccount PostAccount marshal WriteMessages
              { s with kafkaProducer := some p } r).resp ∧
          (s.PostAccount PostAccount marshal WriteMessages r).err =
            (grpcServer.PostAccount PostAccount marshal WriteMessages
              { s with kafkaProducer := some p } r).err) := by
  refine ⟨fun cfg => ?_, fun cfg h => ?_, fun σ cfg svc => ⟨rfl, rfl⟩, ?_⟩
  · unfold main.kafkaProducer
    by_cases h : cfg.KafkaBrokers = "" <;> simp [h]
  · unfold main.kafkaProducer
    simp [h]
  · intro σ ω E PostAccount marshal WriteMessages s r hn
    rcases hs : PostAccount s.service r.Name with ⟨_ | a, svc⟩ <;>
      simp [grpcServer.PostAccount, hs, hn]

end account

end Fritzy
